import Mathlib

/-!
Shallow embedding of the Trading-SDK order-management engine
(`app/models.py`, `app/storage.py`, `app/services/*.py`).

Python `Decimal` prices are modelled as exact rationals (`ℚ`); quantities
are `Int` (Python `int`).  The in-memory dictionaries of `InMemoryStorage`
are modelled as association-style lists keyed by the natural key (symbol
for instruments and holdings, generated id for orders and trades), with
`find?` as point lookup and key-preserving upsert as overwrite-by-key,
which matches Python `dict` insertion-and-overwrite semantics.  The uuid4
id generators are modelled by deterministic fresh-id counters; no claim
depends on the shape of an id string.
-/

namespace TradingSDK

/-- `OrderType` enum from `app/models.py`. -/
inductive OrderType where
  | BUY
  | SELL
deriving DecidableEq, Repr

/-- `OrderStyle` enum from `app/models.py`. -/
inductive OrderStyle where
  | MARKET
  | LIMIT
deriving DecidableEq, Repr

/-- `OrderStatus` enum from `app/models.py`. -/
inductive OrderStatus where
  | NEW
  | PLACED
  | EXECUTED
  | CANCELLED
deriving DecidableEq, Repr

/-- `Instrument` dataclass (exchange and instrument type carried but unused
by the engine's arithmetic). -/
structure Instrument where
  symbol : String
  exchange : String
  last_traded_price : ℚ
deriving DecidableEq, Repr

/-- `Order` dataclass (timestamp omitted: no claim mentions it). -/
structure Order where
  id : String
  symbol : String
  order_type : OrderType
  order_style : OrderStyle
  quantity : Int
  price : Option ℚ
  status : OrderStatus
deriving DecidableEq, Repr

/-- `Trade` dataclass (timestamp omitted). -/
structure Trade where
  id : String
  order_id : String
  symbol : String
  quantity : Int
  price : ℚ
deriving DecidableEq, Repr

/-- `PortfolioHolding` dataclass. -/
structure PortfolioHolding where
  symbol : String
  quantity : Int
  average_price : ℚ
  current_value : ℚ
deriving DecidableEq, Repr

/-- `Trade.create(order, execution_price)`: copies order id, symbol and
quantity, fills the given execution price. -/
def Trade.create (tid : String) (order : Order) (execution_price : ℚ) : Trade :=
  { id := tid
    order_id := order.id
    symbol := order.symbol
    quantity := order.quantity
    price := execution_price }

/-- `PortfolioHolding.update_position(trade_quantity, trade_price,
current_market_price)` from `app/models.py`. -/
def PortfolioHolding.update_position (h : PortfolioHolding) (trade_quantity : Int)
    (trade_price current_market_price : ℚ) : PortfolioHolding :=
  if h.quantity + trade_quantity = 0 then
    { h with quantity := 0, average_price := 0, current_value := 0 }
  else
    let total_cost : ℚ := h.quantity * h.average_price + trade_quantity * trade_price
    let new_quantity : Int := h.quantity + trade_quantity
    { h with
        quantity := new_quantity
        average_price := if new_quantity ≠ 0 then total_cost / new_quantity else 0
        current_value := new_quantity * current_market_price }

/-- Key-preserving overwrite-or-append, the model of `d[key] = value` on a
Python dict: an existing entry with the same key is replaced in place,
otherwise the entry is appended at the end. -/
def upsertBy {α : Type} (key : α → String) (x : α) : List α → List α
  | [] => [x]
  | y :: ys => if key y = key x then x :: ys else y :: upsertBy key x ys

/-- The `InMemoryStorage` state: the four dictionaries. -/
structure Storage where
  instruments : List Instrument
  orders : List Order
  trades : List Trade
  portfolio : List PortfolioHolding
deriving DecidableEq, Repr

namespace Storage

/-- `InMemoryStorage.get_instrument`. -/
def get_instrument (s : Storage) (symbol : String) : Option Instrument :=
  s.instruments.find? (fun i => i.symbol = symbol)

/-- `InMemoryStorage.save_instrument`. -/
def save_instrument (s : Storage) (i : Instrument) : Storage :=
  { s with instruments := upsertBy Instrument.symbol i s.instruments }

/-- `InMemoryStorage.save_order`. -/
def save_order (s : Storage) (o : Order) : Storage :=
  { s with orders := upsertBy Order.id o s.orders }

/-- `InMemoryStorage.get_order`. -/
def get_order (s : Storage) (order_id : String) : Option Order :=
  s.orders.find? (fun o => o.id = order_id)

/-- `InMemoryStorage.update_order_status`: overwrite the status if the id
is present and report success, otherwise report failure and change
nothing.  No transition validation. -/
def update_order_status (s : Storage) (order_id : String) (status : OrderStatus) :
    Storage × Bool :=
  if s.orders.any (fun o => o.id = order_id) then
    ({ s with orders := s.orders.map (fun o =>
        if o.id = order_id then { o with status := status } else o) }, true)
  else
    (s, false)

/-- `InMemoryStorage.save_trade`. -/
def save_trade (s : Storage) (t : Trade) : Storage :=
  { s with trades := upsertBy Trade.id t s.trades }

/-- `InMemoryStorage.get_trade`. -/
def get_trade (s : Storage) (trade_id : String) : Option Trade :=
  s.trades.find? (fun t => t.id = trade_id)

/-- `InMemoryStorage.save_portfolio_holding`. -/
def save_portfolio_holding (s : Storage) (h : PortfolioHolding) : Storage :=
  { s with portfolio := upsertBy PortfolioHolding.symbol h s.portfolio }

/-- `InMemoryStorage.get_portfolio_holding`. -/
def get_portfolio_holding (s : Storage) (symbol : String) : Option PortfolioHolding :=
  s.portfolio.find? (fun h => h.symbol = symbol)

/-- The market price used by `update_portfolio_position`: the live
instrument price, falling back to the trade price when the symbol has no
instrument in the catalog. -/
def market_price_for (s : Storage) (symbol : String) (trade_price : ℚ) : ℚ :=
  match s.get_instrument symbol with
  | some i => i.last_traded_price
  | none => trade_price

/-- `InMemoryStorage.update_portfolio_position(symbol, quantity_change,
trade_price)`: the atomic apply-position-delta operation. -/
def update_portfolio_position (s : Storage) (symbol : String) (quantity_change : Int)
    (trade_price : ℚ) : Storage :=
  let current_market_price : ℚ := s.market_price_for symbol trade_price
  match s.get_portfolio_holding symbol with
  | some holding =>
      let holding' := holding.update_position quantity_change trade_price current_market_price
      if holding'.quantity = 0 then
        { s with portfolio := s.portfolio.filter (fun h => ¬ h.symbol = symbol) }
      else
        { s with portfolio := s.portfolio.map (fun h =>
            if h.symbol = symbol then holding' else h) }
  | none =>
      if quantity_change > 0 then
        { s with portfolio := s.portfolio ++
            [{ symbol := symbol
               quantity := quantity_change
               average_price := trade_price
               current_value := quantity_change * current_market_price }] }
      else
        s

/-- Fresh order id, modelling `uuid.uuid4()` in `Order.create`. -/
def fresh_order_id (s : Storage) : String :=
  "order-" ++ toString s.orders.length

/-- Fresh trade id, modelling `uuid.uuid4()` in `Trade.create`. -/
def fresh_trade_id (s : Storage) : String :=
  "trade-" ++ toString s.trades.length

/-- Net position quantity for a symbol: the stored holding's quantity, or
zero when no holding is stored. -/
def position_qty (s : Storage) (symbol : String) : Int :=
  match s.get_portfolio_holding symbol with
  | some h => h.quantity
  | none => 0

end Storage

/-- The `ValueError`s raised by `TradeService`. -/
inductive TradeError where
  | valueError (msg : String)
deriving DecidableEq, Repr

/-- `TradeService.execute_market_order(order)`: requires MARKET style and a
known instrument; fills at the instrument's live price, saves the trade,
marks the order EXECUTED, applies the signed position delta. -/
def execute_market_order (s : Storage) (order : Order) :
    Except TradeError (Storage × Trade) :=
  if order.order_style ≠ OrderStyle.MARKET then
    .error (.valueError "Only market orders can be executed immediately")
  else
    match s.get_instrument order.symbol with
    | none => .error (.valueError ("Instrument " ++ order.symbol ++ " not found"))
    | some instrument =>
        let execution_price := instrument.last_traded_price
        let trade := Trade.create s.fresh_trade_id order execution_price
        let s1 := s.save_trade trade
        let s2 := (s1.update_order_status order.id OrderStatus.EXECUTED).1
        let quantity_change : Int :=
          if order.order_type = OrderType.BUY then order.quantity else -order.quantity
        let s3 := s2.update_portfolio_position order.symbol quantity_change execution_price
        .ok (s3, trade)

/-- `TradeService.execute_limit_order(order, market_price)`: requires LIMIT
style with a price; executes at the limit price when the reference price
is eligible, otherwise returns no trade and leaves everything unchanged. -/
def execute_limit_order (s : Storage) (order : Order) (market_price : ℚ) :
    Except TradeError (Storage × Option Trade) :=
  if order.order_style ≠ OrderStyle.LIMIT ∨ order.price = none then
    .error (.valueError "Order must be a limit order with price")
  else
    match order.price with
    | none => .error (.valueError "Order must be a limit order with price")
    | some limit_price =>
        let can_execute : Bool :=
          (order.order_type = OrderType.BUY ∧ market_price ≤ limit_price) ∨
          (order.order_type = OrderType.SELL ∧ market_price ≥ limit_price)
        if can_execute then
          let trade := Trade.create s.fresh_trade_id order limit_price
          let s1 := s.save_trade trade
          let s2 := (s1.update_order_status order.id OrderStatus.EXECUTED).1
          let quantity_change : Int :=
            if order.order_type = OrderType.BUY then order.quantity else -order.quantity
          let s3 := s2.update_portfolio_position order.symbol quantity_change limit_price
          .ok (s3, some trade)
        else
          .ok (s, none)

/-- One step of the sweep loop in
`TradeService.simulate_market_execution`: attempt the order, collect a
success, swallow a failure and keep whatever state the attempt left. -/
def sweep_step (acc : Storage × List Trade) (order : Order) : Storage × List Trade :=
  match execute_market_order acc.1 order with
  | .ok (s', trade) => (s', acc.2 ++ [trade])
  | .error _ => acc

/-- Predicate for the sweep's scan: orders currently PLACED and MARKET. -/
def placed_market (o : Order) : Bool :=
  o.status = OrderStatus.PLACED ∧ o.order_style = OrderStyle.MARKET

/-- `TradeService.simulate_market_execution()`: scan the PLACED market
orders, attempt each in turn, collect the successful trades. -/
def simulate_market_execution (s : Storage) : Storage × List Trade :=
  (s.orders.filter placed_market).foldl sweep_step (s, [])

/-- The typed errors raised by `OrderService._validate_order_request`. -/
inductive PlaceError where
  | validationError (msg : String)
  | instrumentNotFound (symbol : String)
deriving DecidableEq, Repr

/-- The `OrderRequest` schema fields consumed by `OrderService`. -/
structure OrderRequest where
  symbol : String
  order_type : OrderType
  order_style : OrderStyle
  quantity : Int
  price : Option ℚ
deriving DecidableEq, Repr

/-- Does the optional limit price fail the positivity check? -/
def price_nonpositive : Option ℚ → Bool
  | some p => p ≤ 0
  | none => false

/-- `OrderService._validate_order_request`, checks in source order:
positive quantity, limit price present, limit price positive, known
instrument. -/
def validate_order_request (s : Storage) (req : OrderRequest) : Option PlaceError :=
  if req.quantity ≤ 0 then
    some (.validationError "Order quantity must be greater than zero")
  else if req.order_style = OrderStyle.LIMIT ∧ req.price = none then
    some (.validationError "Price is required for limit orders")
  else if req.order_style = OrderStyle.LIMIT ∧ price_nonpositive req.price then
    some (.validationError "Price must be greater than zero for limit orders")
  else
    match s.get_instrument req.symbol with
    | none => some (.instrumentNotFound req.symbol)
    | some _ => none

/-- `OrderService.place_order`: validate (raising before any mutation),
create the order, advance it to PLACED, persist it, and for MARKET style
attempt immediate execution, swallowing any execution failure.  The
resulting storage is returned alongside the outcome; on a validation
failure it is the input storage unchanged, because the Python method
raises before any write. -/
def place_order (s : Storage) (req : OrderRequest) : Storage × Except PlaceError Order :=
  match validate_order_request s req with
  | some e => (s, .error e)
  | none =>
      let order : Order :=
        { id := s.fresh_order_id
          symbol := req.symbol
          order_type := req.order_type
          order_style := req.order_style
          quantity := req.quantity
          price := req.price
          status := OrderStatus.PLACED }
      let s1 := s.save_order order
      if order.order_style = OrderStyle.MARKET then
        match execute_market_order s1 order with
        | .ok (s2, _) => (s2, .ok order)
        | .error _ => (s1, .ok order)
      else
        (s1, .ok order)

/-- One step of the loop in `PortfolioService.get_portfolio`: a holding
whose instrument is known is refreshed at the live price, persisted and
returned; a holding whose instrument is unknown is skipped. -/
def portfolio_step (acc : Storage × List PortfolioHolding) (holding : PortfolioHolding) :
    Storage × List PortfolioHolding :=
  match acc.1.get_instrument holding.symbol with
  | some instrument =>
      let updated : PortfolioHolding :=
        { holding with current_value := holding.quantity * instrument.last_traded_price }
      (acc.1.save_portfolio_holding updated, acc.2 ++ [updated])
  | none => acc

/-- `PortfolioService.get_portfolio()`: walk the snapshot of stored
holdings, refresh and persist each one that has a known instrument. -/
def get_portfolio (s : Storage) : Storage × List PortfolioHolding :=
  s.portfolio.foldl portfolio_step (s, [])

/-- The sample instrument catalog seeded by
`InMemoryStorage._initialize_sample_data`. -/
def sampleStorage : Storage :=
  { instruments :=
      [ { symbol := "TCS", exchange := "NSE", last_traded_price := 3450.25 }
      , { symbol := "INFY", exchange := "NSE", last_traded_price := 1520.40 }
      , { symbol := "RELIANCE", exchange := "NSE", last_traded_price := 2850.10 }
      , { symbol := "HDFC", exchange := "NSE", last_traded_price := 1680.75 }
      , { symbol := "ICICIBANK", exchange := "NSE", last_traded_price := 950.30 } ]
    orders := []
    trades := []
    portfolio := [] }

/-- A PLACED market SELL order for one TCS share. -/
def c1Order : Order :=
  { id := "order-0", symbol := "TCS", order_type := OrderType.SELL
    order_style := OrderStyle.MARKET, quantity := 1, price := none
    status := OrderStatus.PLACED }

/-- The sample catalog holding `c1Order`, with an empty portfolio: no TCS
holding exists when the SELL executes. -/
def c1Storage : Storage :=
  { sampleStorage with orders := [c1Order] }

/-- A storage whose portfolio holds 5 TCS at average price 100. -/
def c5Storage : Storage :=
  { sampleStorage with portfolio :=
      [{ symbol := "TCS", quantity := 5, average_price := 100
         current_value := 5 * 3450.25 }] }

/-- A storage with one holding whose symbol has no instrument in the
catalog (such a holding arises from a limit order on an uncatalogued
symbol, which `execute_limit_order` never checks). -/
def c6Storage : Storage :=
  { sampleStorage with portfolio :=
      [{ symbol := "XYZ", quantity := 10, average_price := 50
         current_value := 500 }] }

/-- Three PLACED market orders; the second references a symbol with no
instrument in the catalog. -/
def c7Orders : List Order :=
  [ { id := "order-0", symbol := "TCS", order_type := OrderType.BUY
      order_style := OrderStyle.MARKET, quantity := 10, price := none
      status := OrderStatus.PLACED }
  , { id := "order-1", symbol := "NOPE", order_type := OrderType.BUY
      order_style := OrderStyle.MARKET, quantity := 5, price := none
      status := OrderStatus.PLACED }
  , { id := "order-2", symbol := "INFY", order_type := OrderType.BUY
      order_style := OrderStyle.MARKET, quantity := 7, price := none
      status := OrderStatus.PLACED } ]

/-- The sample catalog with the three sweep orders placed. -/
def c7Storage : Storage :=
  { sampleStorage with orders := c7Orders }

/-- A PLACED limit BUY order on the symbol "XYZ", which has no instrument
in the sample catalog. -/
def c10Order : Order :=
  { id := "order-10", symbol := "XYZ", order_type := OrderType.BUY
    order_style := OrderStyle.LIMIT, quantity := 3, price := some 100
    status := OrderStatus.PLACED }

/-- The sample catalog holding `c10Order`; no XYZ instrument, no XYZ
holding. -/
def c10Storage : Storage :=
  { sampleStorage with orders := [c10Order] }

/-- Refreshing one holding against an instrument context, as one loop
iteration of `PortfolioService.get_portfolio` does for a holding whose
instrument is found: recompute `current_value` at the live price. -/
def refresh_entry (ins : List Instrument) (h : PortfolioHolding) : Option PortfolioHolding :=
  match ins.find? (fun i => i.symbol = h.symbol) with
  | some i => some { h with current_value := h.quantity * i.last_traded_price }
  | none => none

/-- A PLACED limit BUY order on TCS with limit price 100. -/
def c3Order : Order :=
  { id := "order-3", symbol := "TCS", order_type := OrderType.BUY
    order_style := OrderStyle.LIMIT, quantity := 10, price := some 100
    status := OrderStatus.PLACED }

/-- The sample catalog holding `c3Order`. -/
def c3Storage : Storage :=
  { sampleStorage with orders := [c3Order] }

/-- An order already EXECUTED, to exercise an unvalidated transition out
of a terminal status. -/
def c9Order : Order :=
  { id := "order-9", symbol := "TCS", order_type := OrderType.BUY
    order_style := OrderStyle.MARKET, quantity := 3, price := none
    status := OrderStatus.EXECUTED }

/-- The sample catalog holding the executed order `c9Order`. -/
def c9Storage : Storage :=
  { sampleStorage with orders := [c9Order] }

/-!  Helper lemmas about the list operations backing the storage maps. -/

theorem find?_upsertBy_self {α : Type} (key : α → String) (x : α) (l : List α)
    (k : String) (hk : key x = k) :
    (upsertBy key x l).find? (fun y => key y = k) = some x := by
  induction l with
  | nil => exact List.find?_cons_of_pos _ (by simp [hk])
  | cons y ys ih =>
      unfold upsertBy
      by_cases h : key y = key x
      · rw [if_pos h]
        exact List.find?_cons_of_pos _ (by simp [hk])
      · rw [if_neg h]
        rw [List.find?_cons_of_neg _ (by simp [hk ▸ h])]
        exact ih

theorem find?_upsertBy_ne {α : Type} (key : α → String) (x : α) (l : List α)
    (k : String) (hk : ¬ key x = k) :
    (upsertBy key x l).find? (fun y => key y = k) = l.find? (fun y => key y = k) := by
  induction l with
  | nil =>
      simp only [upsertBy]
      rw [List.find?_cons_of_neg _ (by simp [hk])]
  | cons y ys ih =>
      unfold upsertBy
      by_cases h : key y = key x
      · rw [if_pos h]
        rw [List.find?_cons_of_neg _ (by simp [hk])]
        rw [List.find?_cons_of_neg _ (by simp [h, hk])]
      · rw [if_neg h]
        by_cases hy : key y = k
        · rw [List.find?_cons_of_pos _ (by simp [hy]),
              List.find?_cons_of_pos _ (by simp [hy])]
        · rw [List.find?_cons_of_neg _ (by simp [hy]),
              List.find?_cons_of_neg _ (by simp [hy])]
          exact ih

theorem find?_filter_out {α : Type} (key : α → String) (l : List α) (k : String) :
    (l.filter (fun y => ¬ key y = k)).find? (fun y => key y = k) = none := by
  induction l with
  | nil => rfl
  | cons y ys ih =>
      by_cases h : key y = k
      · simp only [List.filter_cons, h]
        rw [if_neg (by simp [h])]
        exact ih
      · rw [List.filter_cons, if_pos (by simp [h])]
        rw [List.find?_cons_of_neg _ (by simp [h])]
        exact ih

theorem find?_map_const_holding (b : PortfolioHolding) (l : List PortfolioHolding)
    (k : String) (a : PortfolioHolding)
    (hb : b.symbol = k)
    (hfind : l.find? (fun x => x.symbol = k) = some a) :
    (l.map (fun x => if x.symbol = k then b else x)).find? (fun x => x.symbol = k) =
      some b := by
  induction l with
  | nil => simp at hfind
  | cons y ys ih =>
      by_cases h : y.symbol = k
      · rw [List.map_cons, if_pos h]
        exact List.find?_cons_of_pos _ (by simp [hb])
      · rw [List.find?_cons_of_neg _ (by simp [h])] at hfind
        rw [List.map_cons, if_neg h]
        rw [List.find?_cons_of_neg _ (by simp [h])]
        exact ih hfind

theorem find?_orders_set_status (l : List Order) (oid : String) (st : OrderStatus)
    (o : Order)
    (hfind : l.find? (fun x => x.id = oid) = some o) :
    (l.map (fun x => if x.id = oid then { x with status := st } else x)).find?
      (fun x => x.id = oid) = some { o with status := st } := by
  induction l with
  | nil => simp at hfind
  | cons y ys ih =>
      by_cases h : y.id = oid
      · rw [List.find?_cons_of_pos _ (by simp [h])] at hfind
        cases hfind
        rw [List.map_cons, if_pos h]
        exact List.find?_cons_of_pos _ (by simp [h])
      · rw [List.find?_cons_of_neg _ (by simp [h])] at hfind
        rw [List.map_cons, if_neg h]
        rw [List.find?_cons_of_neg _ (by simp [h])]
        exact ih hfind

theorem find?_append_singleton {α : Type} (p : α → Bool) (l : List α) (x : α)
    (h : l.find? p = none) (hx : p x = true) :
    (l ++ [x]).find? p = some x := by
  rw [List.find?_append, h]
  simp [List.find?_cons_of_pos _ hx]

/-!  Which parts of the storage each operation leaves untouched. -/

theorem save_trade_instruments (s : Storage) (t : Trade) :
    (s.save_trade t).instruments = s.instruments := rfl

theorem save_trade_orders (s : Storage) (t : Trade) :
    (s.save_trade t).orders = s.orders := rfl

theorem save_trade_portfolio (s : Storage) (t : Trade) :
    (s.save_trade t).portfolio = s.portfolio := rfl

theorem update_order_status_instruments (s : Storage) (oid : String) (st : OrderStatus) :
    ((s.update_order_status oid st).1).instruments = s.instruments := by
  unfold Storage.update_order_status
  split <;> rfl

theorem update_order_status_trades (s : Storage) (oid : String) (st : OrderStatus) :
    ((s.update_order_status oid st).1).trades = s.trades := by
  unfold Storage.update_order_status
  split <;> rfl

theorem update_order_status_portfolio (s : Storage) (oid : String) (st : OrderStatus) :
    ((s.update_order_status oid st).1).portfolio = s.portfolio := by
  unfold Storage.update_order_status
  split <;> rfl

theorem update_portfolio_position_instruments (s : Storage) (sym : String)
    (qc : Int) (tp : ℚ) :
    (s.update_portfolio_position sym qc tp).instruments = s.instruments := by
  unfold Storage.update_portfolio_position
  split <;> (dsimp only; split <;> rfl)

theorem update_portfolio_position_orders (s : Storage) (sym : String)
    (qc : Int) (tp : ℚ) :
    (s.update_portfolio_position sym qc tp).orders = s.orders := by
  unfold Storage.update_portfolio_position
  split <;> (dsimp only; split <;> rfl)

theorem update_portfolio_position_trades (s : Storage) (sym : String)
    (qc : Int) (tp : ℚ) :
    (s.update_portfolio_position sym qc tp).trades = s.trades := by
  unfold Storage.update_portfolio_position
  split <;> (dsimp only; split <;> rfl)

theorem save_portfolio_holding_instruments (s : Storage) (h : PortfolioHolding) :
    (s.save_portfolio_holding h).instruments = s.instruments := rfl

/-!  Point lookups depend only on the map they read. -/

theorem get_instrument_congr {s s' : Storage} (h : s'.instruments = s.instruments)
    (sym : String) : s'.get_instrument sym = s.get_instrument sym := by
  unfold Storage.get_instrument
  rw [h]

theorem get_order_congr {s s' : Storage} (h : s'.orders = s.orders)
    (oid : String) : s'.get_order oid = s.get_order oid := by
  unfold Storage.get_order
  rw [h]

theorem get_trade_congr {s s' : Storage} (h : s'.trades = s.trades)
    (tid : String) : s'.get_trade tid = s.get_trade tid := by
  unfold Storage.get_trade
  rw [h]

theorem get_portfolio_holding_congr {s s' : Storage} (h : s'.portfolio = s.portfolio)
    (sym : String) : s'.get_portfolio_holding sym = s.get_portfolio_holding sym := by
  unfold Storage.get_portfolio_holding
  rw [h]

theorem market_price_for_congr {s s' : Storage} (h : s'.instruments = s.instruments)
    (sym : String) (tp : ℚ) :
    s'.market_price_for sym tp = s.market_price_for sym tp := by
  unfold Storage.market_price_for
  rw [get_instrument_congr h]

/-!  The central characterization of the apply-position-delta operation:
what the stored holding for the touched symbol looks like afterwards. -/

theorem get_holding_after_update (s : Storage) (sym : String) (qc : Int) (tp : ℚ) :
    (s.update_portfolio_position sym qc tp).get_portfolio_holding sym =
      match s.get_portfolio_holding sym with
      | some h =>
          if h.quantity + qc = 0 then none
          else some { h with
              quantity := h.quantity + qc
              average_price :=
                ((h.quantity : ℚ) * h.average_price + (qc : ℚ) * tp) /
                  ((h.quantity + qc : Int) : ℚ)
              current_value := ((h.quantity + qc : Int) : ℚ) * s.market_price_for sym tp }
      | none =>
          if 0 < qc then
            some { symbol := sym, quantity := qc, average_price := tp
                   current_value := (qc : ℚ) * s.market_price_for sym tp }
          else none := by
  unfold Storage.update_portfolio_position
  cases hh : s.get_portfolio_holding sym with
  | some h =>
      have hsym : h.symbol = sym := by
        have := List.find?_some hh
        simpa using this
      dsimp only
      by_cases hz : h.quantity + qc = 0
      · rw [if_pos (by simp [PortfolioHolding.update_position, hz])]
        rw [if_pos hz]
        exact find?_filter_out PortfolioHolding.symbol s.portfolio sym
      · rw [if_neg (by simp [PortfolioHolding.update_position, hz])]
        rw [if_neg hz]
        unfold Storage.get_portfolio_holding
        rw [find?_map_const_holding (h.update_position qc tp (s.market_price_for sym tp))
              s.portfolio sym h (by simp [PortfolioHolding.update_position, hz, hsym]) hh]
        simp [PortfolioHolding.update_position, hz]
  | none =>
      dsimp only
      by_cases hq : 0 < qc
      · rw [if_pos hq, if_pos hq]
        unfold Storage.get_portfolio_holding at hh ⊢
        exact find?_append_singleton _ _ _ hh (by simp)
      · rw [if_neg hq, if_neg hq]
        exact hh

/-!  Characterization of the unconditional status overwrite. -/

theorem update_order_status_found (s : Storage) (oid : String) (st : OrderStatus)
    (o : Order) (h : s.get_order oid = some o) :
    (s.update_order_status oid st).2 = true ∧
    ((s.update_order_status oid st).1).get_order oid = some { o with status := st } := by
  have hfind : s.orders.find? (fun x => x.id = oid) = some o := h
  have hpo := List.find?_some hfind
  have hany : s.orders.any (fun x => x.id = oid) = true := by
    rw [List.any_eq_true]
    exact ⟨o, List.mem_of_find?_eq_some hfind, hpo⟩
  unfold Storage.update_order_status
  rw [if_pos hany]
  exact ⟨rfl, find?_orders_set_status s.orders oid st o hfind⟩

theorem update_order_status_not_found (s : Storage) (oid : String) (st : OrderStatus)
    (h : s.get_order oid = none) :
    s.update_order_status oid st = (s, false) := by
  have hfind : s.orders.find? (fun x => x.id = oid) = none := h
  have hany : ¬ s.orders.any (fun x => x.id = oid) = true := by
    rw [List.any_eq_true]
    rintro ⟨x, hx, hpx⟩
    exact absurd hpx (List.find?_eq_none.mp hfind x hx)
  unfold Storage.update_order_status
  rw [if_neg hany]

/-- C9: for every stored order id and every target status — including
transitions out of EXECUTED or CANCELLED — `update_order_status`
overwrites the order's status with the target and returns true; it
returns false iff the id is not present, and then changes nothing. -/
theorem C9_update_status_unconditional (s : Storage) (oid : String) (st : OrderStatus) :
    (∀ o, s.get_order oid = some o →
        (s.update_order_status oid st).2 = true ∧
        ((s.update_order_status oid st).1).get_order oid = some { o with status := st }) ∧
    (s.get_order oid = none → s.update_order_status oid st = (s, false)) ∧
    ((s.update_order_status oid st).2 = false ↔ s.get_order oid = none) := by
  refine ⟨fun o h => update_order_status_found s oid st o h,
          fun h => update_order_status_not_found s oid st h, ?_⟩
  cases h : s.get_order oid with
  | some o =>
      have ht := (update_order_status_found s oid st o h).1
      simp [ht]
  | none =>
      rw [update_order_status_not_found s oid st h]
      simp

/-- Witness for C9: the status of an already-EXECUTED order is forced
back to PLACED, with no transition validation in the way. -/
theorem C9_witness :
    (c9Storage.update_order_status "order-9" OrderStatus.PLACED).2 = true ∧
    ((c9Storage.update_order_status "order-9" OrderStatus.PLACED).1).get_order "order-9" =
      some { c9Order with status := OrderStatus.PLACED } :=
  (C9_update_status_unconditional c9Storage "order-9" OrderStatus.PLACED).1 c9Order (by decide)

/-- C2: a position delta of `dq` at price `p` on an existing holding with
non-zero resulting quantity leaves the average price at the weighted
cost basis `(old_qty * old_avg + dq * p) / (old_qty + dq)`; and from an
empty position, buying 100 units at 3000 then 50 at 3600 yields average
price exactly 3200. -/
theorem C2_weighted_average :
    (∀ (s : Storage) (sym : String) (h : PortfolioHolding) (dq : Int) (p : ℚ),
        s.get_portfolio_holding sym = some h →
        h.quantity + dq ≠ 0 →
        ∃ h', (s.update_portfolio_position sym dq p).get_portfolio_holding sym = some h' ∧
          h'.quantity = h.quantity + dq ∧
          h'.average_price =
            ((h.quantity : ℚ) * h.average_price + (dq : ℚ) * p) /
              ((h.quantity + dq : Int) : ℚ)) ∧
    (∃ h', ((sampleStorage.update_portfolio_position "TCS" 100 3000).update_portfolio_position
          "TCS" 50 3600).get_portfolio_holding "TCS" = some h' ∧
        h'.average_price = 3200 ∧ h'.quantity = 150) := by
  constructor
  · intro s sym h dq p hfound hnz
    have hm := get_holding_after_update s sym dq p
    rw [hfound] at hm
    dsimp only at hm
    rw [if_neg hnz] at hm
    exact ⟨_, hm, rfl, rfl⟩
  · have h1 := get_holding_after_update sampleStorage "TCS" 100 3000
    rw [show sampleStorage.get_portfolio_holding "TCS" = none from rfl] at h1
    dsimp only at h1
    rw [if_pos (by norm_num)] at h1
    have h2 := get_holding_after_update
      (sampleStorage.update_portfolio_position "TCS" 100 3000) "TCS" 50 3600
    rw [h1] at h2
    dsimp only at h2
    rw [if_neg (by norm_num)] at h2
    refine ⟨_, h2, ?_, by norm_num⟩
    push_cast
    norm_num

/-- Witness for C2: applying the general clause to a 5-share TCS holding
at average 100, buying 5 more at 200. -/
theorem C2_witness :
    ∃ h', (c5Storage.update_portfolio_position "TCS" 5 200).get_portfolio_holding "TCS" =
        some h' ∧ h'.quantity = 5 + 5 ∧
        h'.average_price =
          (((5 : Int) : ℚ) * 100 + ((5 : Int) : ℚ) * 200) / (((5 + 5 : Int)) : ℚ) :=
  C2_weighted_average.1 c5Storage "TCS"
    { symbol := "TCS", quantity := 5, average_price := 100, current_value := 5 * 3450.25 }
    5 200 rfl (by decide)

/-- C3: a LIMIT order with limit price L against reference price R trades
iff (BUY and R ≤ L) or (SELL and R ≥ L); a trade is filled at L, carries
the order's id and quantity; otherwise no trade is produced and the
entire storage is returned unchanged. -/
theorem C3_limit_boundary (s : Storage) (order : Order) (R L : ℚ)
    (hstyle : order.order_style = OrderStyle.LIMIT)
    (hprice : order.price = some L) :
    (((order.order_type = OrderType.BUY ∧ R ≤ L) ∨
      (order.order_type = OrderType.SELL ∧ L ≤ R)) →
        ∃ s' t, execute_limit_order s order R = .ok (s', some t) ∧ t.price = L ∧
          t.order_id = order.id ∧ t.quantity = order.quantity) ∧
    (¬ ((order.order_type = OrderType.BUY ∧ R ≤ L) ∨
        (order.order_type = OrderType.SELL ∧ L ≤ R)) →
        execute_limit_order s order R = .ok (s, none)) := by
  unfold execute_limit_order
  rw [if_neg (by simp [hstyle, hprice])]
  rw [hprice]
  dsimp only
  constructor
  · intro he
    rw [if_pos (decide_eq_true he)]
    exact ⟨_, _, rfl, rfl, rfl, rfl⟩
  · intro hne
    rw [if_neg (by simpa using hne)]

/-- Witness for C3: a BUY limit at 100 executes against reference 99 and
fills at 100. -/
theorem C3_witness :
    ∃ s' t, execute_limit_order c3Storage c3Order 99 = .ok (s', some t) ∧ t.price = 100 ∧
      t.order_id = c3Order.id ∧ t.quantity = c3Order.quantity :=
  (C3_limit_boundary c3Storage c3Order 99 100 (by decide) (by decide)).1 (by decide)

/-- C4: `place` rejects a non-positive quantity with the quantity
validation error regardless of every other field; rejects a LIMIT
request without a price (given a valid quantity, which is checked first)
with the validation error naming the price; and whenever it fails with a
validation error the storage is returned unchanged — no order is
persisted. -/
theorem C4_validation_before_mutation (s : Storage) (req : OrderRequest) :
    (req.quantity ≤ 0 →
        place_order s req =
          (s, .error (.validationError "Order quantity must be greater than zero"))) ∧
    (0 < req.quantity → req.order_style = OrderStyle.LIMIT → req.price = none →
        place_order s req =
          (s, .error (.validationError "Price is required for limit orders"))) ∧
    (∀ msg, (place_order s req).2 = .error (.validationError msg) →
        (place_order s req).1 = s) := by
  refine ⟨?_, ?_, ?_⟩
  · intro hq
    unfold place_order validate_order_request
    rw [if_pos hq]
  · intro hq hstyle hprice
    unfold place_order validate_order_request
    rw [if_neg (by omega)]
    rw [if_pos ⟨hstyle, hprice⟩]
  · intro msg hmsg
    unfold place_order at hmsg ⊢
    split at hmsg
    · rfl
    · rename_i heq
      dsimp only at hmsg
      split at hmsg
      · split at hmsg
        · simp at hmsg
        · simp at hmsg
      · simp at hmsg

/-- Witness for C4: quantity 0 on an unknown symbol still fails with the
quantity validation error, storage unchanged. -/
theorem C4_witness :
    place_order sampleStorage
      { symbol := "NOPE", order_type := OrderType.BUY, order_style := OrderStyle.MARKET
        quantity := 0, price := none } =
      (sampleStorage, .error (.validationError "Order quantity must be greater than zero")) :=
  (C4_validation_before_mutation sampleStorage _).1 (by decide)

/-- Applying a non-positive delta to a symbol with no stored holding is a
complete no-op on the storage. -/
theorem update_portfolio_position_noop (s : Storage) (sym : String) (qc : Int) (tp : ℚ)
    (hn : s.get_portfolio_holding sym = none) (hq : ¬ 0 < qc) :
    s.update_portfolio_position sym qc tp = s := by
  unfold Storage.update_portfolio_position
  rw [hn]
  dsimp only
  rw [if_neg hq]

/-- Counterexample to C5: on an existing 5-share TCS holding at average
100, a delta of −10 at price 100 takes the position through zero, yet
the store keeps a holding with quantity −5 and average price 100 — the
cost basis is not reset and a negative-quantity holding is stored. -/
theorem C5_counterexample :
    ∃ h', (c5Storage.update_portfolio_position "TCS" (-10) 100).get_portfolio_holding "TCS" =
        some h' ∧ h'.quantity = -5 ∧ ¬ h'.average_price = 0 := by
  have hm := get_holding_after_update c5Storage "TCS" (-10) 100
  rw [show c5Storage.get_portfolio_holding "TCS" =
        some { symbol := "TCS", quantity := 5, average_price := 100
               current_value := 5 * 3450.25 } from rfl] at hm
  dsimp only at hm
  rw [if_neg (by norm_num)] at hm
  refine ⟨_, hm, by norm_num, ?_⟩
  push_cast
  norm_num

/-- C5 (amended): only a delta landing exactly on zero resets and removes
the holding.  A delta overshooting zero on an existing holding stores a
negative-quantity holding carrying the weighted-average price, and the
no-negative-holding guarantee holds only in the no-holding case: a
non-positive delta with no stored holding is a no-op. -/
theorem C5_amended_negative_continuation (s : Storage) (sym : String) (dq : Int) (tp : ℚ) :
    (∀ h, s.get_portfolio_holding sym = some h → h.quantity + dq < 0 →
        ∃ h', (s.update_portfolio_position sym dq tp).get_portfolio_holding sym = some h' ∧
          h'.quantity = h.quantity + dq ∧ h'.quantity < 0 ∧
          h'.average_price =
            ((h.quantity : ℚ) * h.average_price + (dq : ℚ) * tp) /
              ((h.quantity + dq : Int) : ℚ)) ∧
    (s.get_portfolio_holding sym = none → dq ≤ 0 →
        s.update_portfolio_position sym dq tp = s) := by
  constructor
  · intro h hfound hneg
    have hm := get_holding_after_update s sym dq tp
    rw [hfound] at hm
    dsimp only at hm
    rw [if_neg (by omega)] at hm
    exact ⟨_, hm, rfl, hneg, rfl⟩
  · intro hn hdq
    exact update_portfolio_position_noop s sym dq tp hn (by omega)

/-- Witness for C5 (amended): the −10 delta on the 5-share holding stores
quantity −5 with the weighted-average price. -/
theorem C5_witness :
    ∃ h', (c5Storage.update_portfolio_position "TCS" (-10) 100).get_portfolio_holding "TCS" =
        some h' ∧ h'.quantity = 5 + (-10) ∧ h'.quantity < 0 ∧
        h'.average_price =
          (((5 : Int) : ℚ) * 100 + ((-10 : Int) : ℚ) * 100) / (((5 + (-10) : Int)) : ℚ) :=
  (C5_amended_negative_continuation c5Storage "TCS" (-10) 100).1
    { symbol := "TCS", quantity := 5, average_price := 100, current_value := 5 * 3450.25 }
    rfl (by decide)

/-- C10: `execute_limit` raises iff the order is not LIMIT-style or has no
price — it never checks that the symbol resolves to an instrument; an
eligible LIMIT BUY on an uncatalogued symbol still trades at the limit
price, and the position update falls back to the trade price as the
market price, so the fresh holding is valued at quantity times the limit
price. -/
theorem C10_no_instrument_check (s : Storage) (order : Order) (R : ℚ) :
    ((∃ e, execute_limit_order s order R = .error e) ↔
        (¬ order.order_style = OrderStyle.LIMIT ∨ order.price = none)) ∧
    (∀ L, order.order_style = OrderStyle.LIMIT → order.price = some L →
        order.order_type = OrderType.BUY → R ≤ L →
        s.get_instrument order.symbol = none →
        s.get_portfolio_holding order.symbol = none →
        0 < order.quantity →
        ∃ s' t, execute_limit_order s order R = .ok (s', some t) ∧ t.price = L ∧
          s'.get_portfolio_holding order.symbol =
            some { symbol := order.symbol, quantity := order.quantity
                   average_price := L
                   current_value := (order.quantity : ℚ) * L }) := by
  constructor
  · by_cases hguard : ¬ order.order_style = OrderStyle.LIMIT ∨ order.price = none
    · constructor
      · intro _; exact hguard
      · intro _
        refine ⟨.valueError "Order must be a limit order with price", ?_⟩
        unfold execute_limit_order
        rw [if_pos hguard]
    · constructor
      · rintro ⟨e, he⟩
        exfalso
        push_neg at hguard
        obtain ⟨hstyle, hprice⟩ := hguard
        cases hp : order.price with
        | none => exact hprice hp
        | some L =>
            unfold execute_limit_order at he
            rw [if_neg (by simp [hstyle, hp])] at he
            rw [hp] at he
            dsimp only at he
            by_cases hc : ((order.order_type = OrderType.BUY ∧ R ≤ L) ∨
                (order.order_type = OrderType.SELL ∧ L ≤ R))
            · rw [if_pos (decide_eq_true hc)] at he
              cases he
            · rw [if_neg (by simpa using hc)] at he
              cases he
      · intro hguard2
        exact absurd hguard2 hguard
  · intro L hstyle hprice hbuy hRL hnoinstr hnohold hqty
    unfold execute_limit_order
    rw [if_neg (by simp [hstyle, hprice])]
    rw [hprice]
    dsimp only
    rw [if_pos (decide_eq_true (Or.inl ⟨hbuy, hRL⟩))]
    refine ⟨_, _, rfl, rfl, ?_⟩
    rw [if_pos hbuy]
    have e2p : (((s.save_trade (Trade.create s.fresh_trade_id order L)).update_order_status
          order.id OrderStatus.EXECUTED).1).get_portfolio_holding order.symbol =
        s.get_portfolio_holding order.symbol :=
      get_portfolio_holding_congr
        (by rw [update_order_status_portfolio, save_trade_portfolio]) _
    have e2i : (((s.save_trade (Trade.create s.fresh_trade_id order L)).update_order_status
          order.id OrderStatus.EXECUTED).1).instruments = s.instruments := by
      rw [update_order_status_instruments, save_trade_instruments]
    have hm := get_holding_after_update
      (((s.save_trade (Trade.create s.fresh_trade_id order L)).update_order_status
          order.id OrderStatus.EXECUTED).1) order.symbol order.quantity L
    rw [e2p, hnohold] at hm
    dsimp only at hm
    rw [if_pos hqty] at hm
    have emp : (((s.save_trade (Trade.create s.fresh_trade_id order L)).update_order_status
          order.id OrderStatus.EXECUTED).1).market_price_for order.symbol L = L := by
      unfold Storage.market_price_for
      rw [get_instrument_congr e2i, hnoinstr]
    rw [emp] at hm
    exact hm

/-- Witness for C10: a limit BUY at 100 on the uncatalogued symbol XYZ,
reference price 100, trades at 100 and creates the XYZ holding valued at
3 × 100 with the trade price standing in for the market price. -/
theorem C10_witness :
    ∃ s' t, execute_limit_order c10Storage c10Order 100 = .ok (s', some t) ∧
      t.price = 100 ∧
      s'.get_portfolio_holding "XYZ" =
        some { symbol := "XYZ", quantity := 3, average_price := 100
               current_value := ((3 : Int) : ℚ) * 100 } :=
  (C10_no_instrument_check c10Storage c10Order 100).2 100
    rfl rfl rfl (by norm_num) rfl rfl (by decide)

/-- Counterexample to C1: a MARKET SELL of 1 TCS with a known instrument
but no stored TCS holding executes successfully, yet the position is not
decreased by the order quantity — the no-holding SELL branch of the
position update is a silent no-op, so the position stays 0 instead of
going to −1. -/
theorem C1_counterexample :
    ∃ s' t, execute_market_order c1Storage c1Order = .ok (s', t) ∧
      ¬ s'.position_qty "TCS" = c1Storage.position_qty "TCS" - c1Order.quantity := by
  refine ⟨_, _, rfl, ?_⟩
  decide

/-- C1 (amended): executing a MARKET order with positive quantity on a
stored order whose symbol has a known instrument at live price P
succeeds; the trade carries the order's id and quantity and price
exactly P; the order's stored status becomes EXECUTED; a BUY increases
the position by exactly the quantity; a SELL decreases it by exactly the
quantity provided a holding exists — with no holding the portfolio is
unchanged; and any stored holding for the symbol afterwards is valued at
its quantity times P. -/
theorem C1_amended_market_execution (s : Storage) (order : Order) (instr : Instrument)
    (hstored : s.get_order order.id = some order)
    (hstyle : order.order_style = OrderStyle.MARKET)
    (hq : 0 < order.quantity)
    (hinstr : s.get_instrument order.symbol = some instr) :
    ∃ s' t, execute_market_order s order = .ok (s', t) ∧
      t.order_id = order.id ∧ t.quantity = order.quantity ∧
      t.price = instr.last_traded_price ∧
      s'.get_trade t.id = some t ∧
      s'.get_order order.id = some { order with status := OrderStatus.EXECUTED } ∧
      (order.order_type = OrderType.BUY →
          s'.position_qty order.symbol = s.position_qty order.symbol + order.quantity) ∧
      (order.order_type = OrderType.SELL →
          ((s.get_portfolio_holding order.symbol).isSome →
              s'.position_qty order.symbol =
                s.position_qty order.symbol - order.quantity) ∧
          (s.get_portfolio_holding order.symbol = none → s'.portfolio = s.portfolio)) ∧
      (∀ h', s'.get_portfolio_holding order.symbol = some h' →
          h'.current_value = (h'.quantity : ℚ) * instr.last_traded_price) := by
  unfold execute_market_order
  rw [if_neg (by simp [hstyle]), hinstr]
  dsimp only
  refine ⟨_, _, rfl, rfl, rfl, rfl, ?_, ?_, ?_, ?_, ?_⟩
  case _ =>
    generalize Trade.create s.fresh_trade_id order instr.last_traded_price = t0
    unfold Storage.get_trade
    rw [update_portfolio_position_trades, update_order_status_trades]
    exact find?_upsertBy_self Trade.id t0 s.trades t0.id rfl
  case _ =>
    generalize Trade.create s.fresh_trade_id order instr.last_traded_price = t0
    have h1o : (s.save_trade t0).get_order order.id = some order := hstored
    rw [get_order_congr (update_portfolio_position_orders _ _ _ _)]
    exact (update_order_status_found (s.save_trade t0) order.id OrderStatus.EXECUTED
      order h1o).2
  case _ =>
    generalize Trade.create s.fresh_trade_id order instr.last_traded_price = t0
    intro hbuy
    rw [if_pos hbuy]
    have e2p : (((s.save_trade t0).update_order_status order.id
          OrderStatus.EXECUTED).1).get_portfolio_holding order.symbol =
        s.get_portfolio_holding order.symbol :=
      get_portfolio_holding_congr
        (by rw [update_order_status_portfolio, save_trade_portfolio]) _
    have emp : (((s.save_trade t0).update_order_status order.id
          OrderStatus.EXECUTED).1).market_price_for order.symbol instr.last_traded_price =
        instr.last_traded_price := by
      have e2i : (((s.save_trade t0).update_order_status order.id
            OrderStatus.EXECUTED).1).instruments = s.instruments := by
        rw [update_order_status_instruments, save_trade_instruments]
      unfold Storage.market_price_for
      rw [get_instrument_congr e2i, hinstr]
    have hm := get_holding_after_update
      (((s.save_trade t0).update_order_status order.id OrderStatus.EXECUTED).1)
      order.symbol order.quantity instr.last_traded_price
    rw [e2p, emp] at hm
    unfold Storage.position_qty
    rw [hm]
    cases hsh : s.get_portfolio_holding order.symbol with
    | some h =>
        dsimp only
        by_cases hz : h.quantity + order.quantity = 0
        · rw [if_pos hz]
          dsimp only
          omega
        · rw [if_neg hz]
    | none =>
        dsimp only
        rw [if_pos hq]
        dsimp only
        omega
  case _ =>
    generalize Trade.create s.fresh_trade_id order instr.last_traded_price = t0
    intro hsell
    have hnotbuy : ¬ order.order_type = OrderType.BUY := by simp [hsell]
    rw [if_neg hnotbuy]
    have e2p : (((s.save_trade t0).update_order_status order.id
          OrderStatus.EXECUTED).1).get_portfolio_holding order.symbol =
        s.get_portfolio_holding order.symbol :=
      get_portfolio_holding_congr
        (by rw [update_order_status_portfolio, save_trade_portfolio]) _
    have emp : (((s.save_trade t0).update_order_status order.id
          OrderStatus.EXECUTED).1).market_price_for order.symbol instr.last_traded_price =
        instr.last_traded_price := by
      have e2i : (((s.save_trade t0).update_order_status order.id
            OrderStatus.EXECUTED).1).instruments = s.instruments := by
        rw [update_order_status_instruments, save_trade_instruments]
      unfold Storage.market_price_for
      rw [get_instrument_congr e2i, hinstr]
    constructor
    · intro hsome
      have hm := get_holding_after_update
        (((s.save_trade t0).update_order_status order.id OrderStatus.EXECUTED).1)
        order.symbol (-order.quantity) instr.last_traded_price
      rw [e2p, emp] at hm
      unfold Storage.position_qty
      rw [hm]
      cases hsh : s.get_portfolio_holding order.symbol with
      | some h =>
          dsimp only
          by_cases hz : h.quantity + -order.quantity = 0
          · rw [if_pos hz]
            dsimp only
            omega
          · rw [if_neg hz]
            dsimp only
            omega
      | none =>
          rw [hsh] at hsome
          simp at hsome
    · intro hnone
      have hnoop := update_portfolio_position_noop
        (((s.save_trade t0).update_order_status order.id OrderStatus.EXECUTED).1)
        order.symbol (-order.quantity) instr.last_traded_price
        (by rw [e2p]; exact hnone) (by omega)
      rw [hnoop]
      rw [update_order_status_portfolio, save_trade_portfolio]
  case _ =>
    generalize Trade.create s.fresh_trade_id order instr.last_traded_price = t0
    intro h' hh'
    have e2p : (((s.save_trade t0).update_order_status order.id
          OrderStatus.EXECUTED).1).get_portfolio_holding order.symbol =
        s.get_portfolio_holding order.symbol :=
      get_portfolio_holding_congr
        (by rw [update_order_status_portfolio, save_trade_portfolio]) _
    have emp : (((s.save_trade t0).update_order_status order.id
          OrderStatus.EXECUTED).1).market_price_for order.symbol instr.last_traded_price =
        instr.last_traded_price := by
      have e2i : (((s.save_trade t0).update_order_status order.id
            OrderStatus.EXECUTED).1).instruments = s.instruments := by
        rw [update_order_status_instruments, save_trade_instruments]
      unfold Storage.market_price_for
      rw [get_instrument_congr e2i, hinstr]
    have hm := get_holding_after_update
      (((s.save_trade t0).update_order_status order.id OrderStatus.EXECUTED).1)
      order.symbol (if order.order_type = OrderType.BUY then order.quantity
        else -order.quantity) instr.last_traded_price
    rw [e2p, emp] at hm
    rw [hm] at hh'
    cases hsh : s.get_portfolio_holding order.symbol with
    | some h =>
        rw [hsh] at hh'
        dsimp only at hh'
        by_cases hz : h.quantity + (if order.order_type = OrderType.BUY then order.quantity
            else -order.quantity) = 0
        · rw [if_pos hz] at hh'
          cases hh'
        · rw [if_neg hz] at hh'
          injection hh' with hinj
          subst hinj
          rfl
    | none =>
        rw [hsh] at hh'
        dsimp only at hh'
        by_cases hqc : 0 < (if order.order_type = OrderType.BUY then order.quantity
            else -order.quantity)
        · rw [if_pos hqc] at hh'
          injection hh' with hinj
          subst hinj
          rfl
        · rw [if_neg hqc] at hh'
          cases hh'

/-- Witness for C1 (amended): the SELL-with-no-holding instance — the
trade and EXECUTED status appear, and the portfolio is unchanged. -/
theorem C1_witness :
    ∃ s' t, execute_market_order c1Storage c1Order = .ok (s', t) ∧
      t.order_id = c1Order.id ∧ t.quantity = c1Order.quantity ∧
      t.price = (3450.25 : ℚ) ∧
      s'.get_trade t.id = some t ∧
      s'.get_order c1Order.id = some { c1Order with status := OrderStatus.EXECUTED } ∧
      (c1Order.order_type = OrderType.BUY →
          s'.position_qty c1Order.symbol =
            c1Storage.position_qty c1Order.symbol + c1Order.quantity) ∧
      (c1Order.order_type = OrderType.SELL →
          ((c1Storage.get_portfolio_holding c1Order.symbol).isSome →
              s'.position_qty c1Order.symbol =
                c1Storage.position_qty c1Order.symbol - c1Order.quantity) ∧
          (c1Storage.get_portfolio_holding c1Order.symbol = none →
              s'.portfolio = c1Storage.portfolio)) ∧
      (∀ h', s'.get_portfolio_holding c1Order.symbol = some h' →
          h'.current_value = (h'.quantity : ℚ) * (3450.25 : ℚ)) :=
  C1_amended_market_execution c1Storage c1Order
    { symbol := "TCS", exchange := "NSE", last_traded_price := 3450.25 }
    rfl rfl (by decide) rfl

/-- Every entry accumulated by the snapshot loop carries the symbol of
some holding in the iterated list. -/
theorem portfolio_fold_out_symbols (l : List PortfolioHolding)
    (acc : Storage × List PortfolioHolding) :
    ∀ e ∈ (l.foldl portfolio_step acc).2, e ∈ acc.2 ∨ ∃ x ∈ l, e.symbol = x.symbol := by
  induction l generalizing acc with
  | nil => intro e he; exact Or.inl he
  | cons y ys ih =>
      intro e he
      rw [List.foldl_cons] at he
      rcases ih (portfolio_step acc y) e he with h1 | ⟨x, hx, hsym⟩
      · unfold portfolio_step at h1
        revert h1
        cases acc.1.get_instrument y.symbol with
        | some i =>
            dsimp only
            intro h1
            rcases List.mem_append.mp h1 with h2 | h2
            · exact Or.inl h2
            · refine Or.inr ⟨y, List.mem_cons_self y ys, ?_⟩
              rw [List.mem_singleton.mp h2]
        | none =>
            intro h1
            exact Or.inl h1
      · exact Or.inr ⟨x, List.mem_cons_of_mem y hx, hsym⟩

/-- C8: a position delta whose resulting quantity is exactly zero removes
the holding from the store and the exhausted symbol is absent from the
subsequent snapshot; moreover the apply-position-delta operation
preserves the invariant that no stored holding has quantity zero. -/
theorem C8_zero_quantity_removed (s : Storage) (sym : String) (dq : Int) (tp : ℚ) :
    (∀ h, s.get_portfolio_holding sym = some h → h.quantity + dq = 0 →
        (s.update_portfolio_position sym dq tp).get_portfolio_holding sym = none ∧
        ∀ e ∈ (get_portfolio (s.update_portfolio_position sym dq tp)).2,
          ¬ e.symbol = sym) ∧
    ((∀ h ∈ s.portfolio, ¬ h.quantity = 0) →
        ∀ h' ∈ (s.update_portfolio_position sym dq tp).portfolio, ¬ h'.quantity = 0) := by
  constructor
  · intro h hfound hz
    have hm := get_holding_after_update s sym dq tp
    rw [hfound] at hm
    dsimp only at hm
    rw [if_pos hz] at hm
    refine ⟨hm, ?_⟩
    intro e he hesym
    have hnone : (s.update_portfolio_position sym dq tp).portfolio.find?
        (fun x => x.symbol = sym) = none := hm
    have hall := List.find?_eq_none.mp hnone
    rcases portfolio_fold_out_symbols (s.update_portfolio_position sym dq tp).portfolio
        (s.update_portfolio_position sym dq tp, []) e he with habs | ⟨x, hx, hsym⟩
    · simp at habs
    · have hxs : x.symbol = sym := by rw [← hsym]; exact hesym
      exact hall x hx (by simp [hxs])
  · intro hall h' hmem
    unfold Storage.update_portfolio_position at hmem
    revert hmem
    cases hh : s.get_portfolio_holding sym with
    | some h =>
        dsimp only
        by_cases hz : (h.update_position dq tp (s.market_price_for sym tp)).quantity = 0
        · rw [if_pos hz]
          intro hmem
          dsimp only at hmem
          exact hall h' (List.mem_of_mem_filter hmem)
        · rw [if_neg hz]
          intro hmem
          dsimp only at hmem
          rcases List.mem_map.mp hmem with ⟨x, hx, hfx⟩
          by_cases hxs : x.symbol = sym
          · rw [if_pos hxs] at hfx
            exact hfx ▸ hz
          · rw [if_neg hxs] at hfx
            exact hfx ▸ hall x hx
    | none =>
        dsimp only
        by_cases hq0 : dq > 0
        · rw [if_pos hq0]
          intro hmem
          dsimp only at hmem
          rcases List.mem_append.mp hmem with h1 | h1
          · exact hall h' h1
          · rw [List.mem_singleton.mp h1]
            dsimp only
            omega
        · rw [if_neg hq0]
          intro hmem
          exact hall h' hmem

/-- Witness for C8: selling the 5-share TCS holding down to exactly zero
removes it and the next snapshot has no TCS entry. -/
theorem C8_witness :
    (c5Storage.update_portfolio_position "TCS" (-5) 100).get_portfolio_holding "TCS" =
      none ∧
    ∀ e ∈ (get_portfolio (c5Storage.update_portfolio_position "TCS" (-5) 100)).2,
      ¬ e.symbol = "TCS" :=
  (C8_zero_quantity_removed c5Storage "TCS" (-5) 100).1
    { symbol := "TCS", quantity := 5, average_price := 100, current_value := 5 * 3450.25 }
    rfl (by decide)

/-- One snapshot-loop step never changes the instrument catalog. -/
theorem portfolio_step_instruments (acc : Storage × List PortfolioHolding)
    (y : PortfolioHolding) :
    (portfolio_step acc y).1.instruments = acc.1.instruments := by
  unfold portfolio_step
  cases hi : acc.1.get_instrument y.symbol with
  | none => rfl
  | some i =>
      dsimp only
      rw [save_portfolio_holding_instruments]

/-- The snapshot loop's returned list is the refresh of exactly the
holdings whose instruments are in the catalog. -/
theorem portfolio_fold_output (ins : List Instrument) (l : List PortfolioHolding)
    (acc : Storage × List PortfolioHolding) (hins : acc.1.instruments = ins) :
    (l.foldl portfolio_step acc).2 = acc.2 ++ l.filterMap (refresh_entry ins) := by
  induction l generalizing acc with
  | nil => simp
  | cons y ys ih =>
      rw [List.foldl_cons, List.filterMap_cons]
      cases hi : acc.1.get_instrument y.symbol with
      | none =>
          have hif : ins.find? (fun i => i.symbol = y.symbol) = none := by
            rw [← hins]; exact hi
          have hstep : portfolio_step acc y = acc := by
            unfold portfolio_step; rw [hi]
          rw [hstep, ih acc hins]
          unfold refresh_entry
          rw [hif]
      | some i =>
          have hif : ins.find? (fun x => x.symbol = y.symbol) = some i := by
            rw [← hins]; exact hi
          have hstep : portfolio_step acc y =
              (acc.1.save_portfolio_holding
                 { y with current_value := (y.quantity : ℚ) * i.last_traded_price },
               acc.2 ++ [{ y with
                 current_value := (y.quantity : ℚ) * i.last_traded_price }]) := by
            unfold portfolio_step; rw [hi]
          rw [hstep, ih _ (by rw [save_portfolio_holding_instruments]; exact hins)]
          unfold refresh_entry
          rw [hif]
          simp

/-- Holdings whose symbol is touched by no loop iteration keep their
stored value through the snapshot loop. -/
theorem portfolio_fold_preserves (ins : List Instrument) (l : List PortfolioHolding)
    (acc : Storage × List PortfolioHolding) (sym : String)
    (hins : acc.1.instruments = ins)
    (hnosym : ∀ x ∈ l, ¬ x.symbol = sym) :
    ((l.foldl portfolio_step acc).1).get_portfolio_holding sym =
      acc.1.get_portfolio_holding sym := by
  induction l generalizing acc with
  | nil => rfl
  | cons y ys ih =>
      rw [List.foldl_cons]
      have hy : ¬ y.symbol = sym := hnosym y (List.mem_cons_self y ys)
      have hstep : (portfolio_step acc y).1.get_portfolio_holding sym =
          acc.1.get_portfolio_holding sym := by
        unfold portfolio_step
        cases hi : acc.1.get_instrument y.symbol with
        | none => rfl
        | some i =>
            dsimp only
            unfold Storage.save_portfolio_holding Storage.get_portfolio_holding
            exact find?_upsertBy_ne PortfolioHolding.symbol _ acc.1.portfolio sym hy
      rw [ih (portfolio_step acc y) (by rw [portfolio_step_instruments]; exact hins)
            (fun x hx => hnosym x (List.mem_cons_of_mem y hx))]
      exact hstep

/-- After the snapshot loop, a holding whose symbol appears exactly once
in the iterated list is stored refreshed when its instrument is known,
and untouched when it is not. -/
theorem portfolio_fold_final (ins : List Instrument) (l : List PortfolioHolding)
    (acc : Storage × List PortfolioHolding) (h : PortfolioHolding)
    (hins : acc.1.instruments = ins)
    (hmem : h ∈ l)
    (hnodup : (l.map PortfolioHolding.symbol).Nodup) :
    ((l.foldl portfolio_step acc).1).get_portfolio_holding h.symbol =
      match ins.find? (fun x => x.symbol = h.symbol) with
      | some i =>
          some { h with current_value := (h.quantity : ℚ) * i.last_traded_price }
      | none => acc.1.get_portfolio_holding h.symbol := by
  induction l generalizing acc with
  | nil => cases hmem
  | cons y ys ih =>
      rw [List.foldl_cons]
      rw [List.map_cons, List.nodup_cons] at hnodup
      rcases List.mem_cons.mp hmem with rfl | hmem'
      · have hnos : ∀ x ∈ ys, ¬ x.symbol = h.symbol := by
          intro x hx hxs
          exact hnodup.1 (hxs ▸ List.mem_map_of_mem PortfolioHolding.symbol hx)
        rw [portfolio_fold_preserves ins ys (portfolio_step acc h) h.symbol
              (by rw [portfolio_step_instruments]; exact hins) hnos]
        unfold portfolio_step
        cases hi : acc.1.get_instrument h.symbol with
        | none =>
            have hif : ins.find? (fun x => x.symbol = h.symbol) = none := by
              rw [← hins]; exact hi
            rw [hif]
        | some i =>
            have hif : ins.find? (fun x => x.symbol = h.symbol) = some i := by
              rw [← hins]; exact hi
            rw [hif]
            dsimp only
            unfold Storage.save_portfolio_holding Storage.get_portfolio_holding
            exact find?_upsertBy_self PortfolioHolding.symbol _ acc.1.portfolio h.symbol rfl
      · have hysym : ¬ y.symbol = h.symbol := by
          intro he
          exact hnodup.1 (he ▸ List.mem_map_of_mem PortfolioHolding.symbol hmem')
        rw [ih (portfolio_step acc y)
              (by rw [portfolio_step_instruments]; exact hins) hmem' hnodup.2]
        cases hif : ins.find? (fun x => x.symbol = h.symbol) with
        | some i => rfl
        | none =>
            unfold portfolio_step
            cases hi : acc.1.get_instrument y.symbol with
            | none => rfl
            | some i =>
                dsimp only
                unfold Storage.save_portfolio_holding Storage.get_portfolio_holding
                exact find?_upsertBy_ne PortfolioHolding.symbol _ acc.1.portfolio
                  h.symbol hysym

/-- Counterexample to C6: a stored holding for XYZ, whose symbol has no
instrument in the catalog, is omitted from the snapshot entirely: the
returned list is empty and nothing is persisted. -/
theorem C6_counterexample :
    c6Storage.get_portfolio_holding "XYZ" =
      some { symbol := "XYZ", quantity := 10, average_price := 50
             current_value := 500 } ∧
    (get_portfolio c6Storage).2 = [] ∧
    (get_portfolio c6Storage).1 = c6Storage :=
  ⟨rfl, rfl, rfl⟩

/-- C6 (amended): the snapshot returns, in order, the refresh of exactly
those stored holdings whose symbol resolves to an instrument —
`current_value` recomputed as quantity times the live price — and, given
per-symbol uniqueness of stored holdings, persists each refreshed value
back to the store; a holding whose symbol has no instrument is omitted
from the returned list and left untouched in the store. -/
theorem C6_amended_snapshot (s : Storage)
    (hnodup : (s.portfolio.map PortfolioHolding.symbol).Nodup) :
    (get_portfolio s).2 = s.portfolio.filterMap (refresh_entry s.instruments) ∧
    (∀ h ∈ s.portfolio, ∀ i, s.get_instrument h.symbol = some i →
        ({ h with current_value := (h.quantity : ℚ) * i.last_traded_price } ∈
            (get_portfolio s).2 ∧
         ((get_portfolio s).1).get_portfolio_holding h.symbol =
            some { h with current_value := (h.quantity : ℚ) * i.last_traded_price })) ∧
    (∀ h ∈ s.portfolio, s.get_instrument h.symbol = none →
        refresh_entry s.instruments h = none ∧
        ((get_portfolio s).1).get_portfolio_holding h.symbol =
          s.get_portfolio_holding h.symbol) := by
  have hout := portfolio_fold_output s.instruments s.portfolio (s, []) rfl
  refine ⟨by simpa using hout, ?_, ?_⟩
  · intro h hmem i hi
    have hif : s.instruments.find? (fun x => x.symbol = h.symbol) = some i := hi
    constructor
    · rw [show (get_portfolio s).2 = s.portfolio.filterMap (refresh_entry s.instruments)
            from by simpa using hout]
      exact List.mem_filterMap.mpr ⟨h, hmem, by unfold refresh_entry; rw [hif]⟩
    · have hfin := portfolio_fold_final s.instruments s.portfolio (s, []) h rfl hmem hnodup
      rw [hif] at hfin
      exact hfin
  · intro h hmem hi
    have hif : s.instruments.find? (fun x => x.symbol = h.symbol) = none := hi
    constructor
    · unfold refresh_entry
      rw [hif]
    · have hfin := portfolio_fold_final s.instruments s.portfolio (s, []) h rfl hmem hnodup
      rw [hif] at hfin
      exact hfin

/-- Witness for C6 (amended): the 5-share TCS holding is returned and
persisted with `current_value` refreshed to 5 × 3450.25. -/
theorem C6_witness :
    { symbol := "TCS", quantity := 5, average_price := 100
      current_value := ((5 : Int) : ℚ) * 3450.25 } ∈ (get_portfolio c5Storage).2 ∧
    ((get_portfolio c5Storage).1).get_portfolio_holding "TCS" =
      some { symbol := "TCS", quantity := 5, average_price := 100
             current_value := ((5 : Int) : ℚ) * 3450.25 } :=
  (C6_amended_snapshot c5Storage (by decide)).2.1
    { symbol := "TCS", quantity := 5, average_price := 100, current_value := 5 * 3450.25 }
    (List.mem_singleton.mpr rfl)
    { symbol := "TCS", exchange := "NSE", last_traded_price := 3450.25 }
    rfl

/-- A successful market execution never changes the instrument catalog. -/
theorem execute_market_order_instruments (s : Storage) (o : Order) (s' : Storage)
    (t : Trade) (h : execute_market_order s o = .ok (s', t)) :
    s'.instruments = s.instruments := by
  unfold execute_market_order at h
  by_cases hs : ¬ o.order_style = OrderStyle.MARKET
  · rw [if_pos hs] at h
    cases h
  · rw [if_neg hs] at h
    cases hi : s.get_instrument o.symbol with
    | none =>
        rw [hi] at h
        cases h
    | some instr =>
        rw [hi] at h
        dsimp only at h
        simp only [Except.ok.injEq, Prod.mk.injEq] at h
        obtain ⟨h1, _⟩ := h
        rw [← h1]
        rw [update_portfolio_position_instruments, update_order_status_instruments,
            save_trade_instruments]

/-- Market execution succeeds exactly when the order is MARKET-style and
the symbol has an instrument. -/
theorem execute_market_order_ok_iff (s : Storage) (o : Order) :
    (∃ r, execute_market_order s o = .ok r) ↔
      (o.order_style = OrderStyle.MARKET ∧ (s.get_instrument o.symbol).isSome) := by
  unfold execute_market_order
  by_cases hs : ¬ o.order_style = OrderStyle.MARKET
  · rw [if_pos hs]
    constructor
    · rintro ⟨r, hr⟩
      cases hr
    · rintro ⟨h1, _⟩
      exact absurd h1 hs
  · rw [if_neg hs]
    push_neg at hs
    cases hi : s.get_instrument o.symbol with
    | none =>
        constructor
        · rintro ⟨r, hr⟩
          cases hr
        · rintro ⟨_, h2⟩
          simp at h2
    | some instr =>
        dsimp only
        constructor
        · intro _
          exact ⟨hs, rfl⟩
        · intro _
          exact ⟨_, rfl⟩

/-- The sweep loop collects one trade per iterated order whose execution
succeeds — MARKET style and catalogued symbol — and is undisturbed by
the failing ones. -/
theorem sweep_fold_count (ins : List Instrument) (l : List Order)
    (acc : Storage × List Trade) (hins : acc.1.instruments = ins) :
    ((l.foldl sweep_step acc).2).length =
      acc.2.length + (l.filter (fun o => o.order_style = OrderStyle.MARKET ∧
        (ins.find? (fun i => i.symbol = o.symbol)).isSome)).length := by
  induction l generalizing acc with
  | nil => simp
  | cons y ys ih =>
      rw [List.foldl_cons, List.filter_cons]
      have hgi : acc.1.get_instrument y.symbol =
          ins.find? (fun i => i.symbol = y.symbol) := by
        unfold Storage.get_instrument
        rw [hins]
      cases hr : execute_market_order acc.1 y with
      | error e =>
          have hstep : sweep_step acc y = acc := by
            unfold sweep_step
            rw [hr]
          have hcond : ¬ (y.order_style = OrderStyle.MARKET ∧
              (ins.find? (fun i => i.symbol = y.symbol)).isSome) := by
            rintro ⟨h1, h2⟩
            rcases (execute_market_order_ok_iff acc.1 y).mpr
                ⟨h1, by rw [hgi]; exact h2⟩ with ⟨r, hr2⟩
            rw [hr] at hr2
            cases hr2
          rw [if_neg (by simpa using hcond)]
          rw [hstep, ih acc hins]
      | ok r =>
          have hstep : sweep_step acc y = (r.1, acc.2 ++ [r.2]) := by
            unfold sweep_step
            rw [hr]
          have hcond : y.order_style = OrderStyle.MARKET ∧
              (ins.find? (fun i => i.symbol = y.symbol)).isSome := by
            rcases (execute_market_order_ok_iff acc.1 y).mp ⟨r, hr⟩ with ⟨h1, h2⟩
            exact ⟨h1, by rw [← hgi]; exact h2⟩
          rw [if_pos (by simpa using hcond)]
          have hins' : r.1.instruments = ins := by
            rw [execute_market_order_instruments acc.1 y r.1 r.2 hr]
            exact hins
          rw [hstep, ih _ hins']
          simp only [List.length_append, List.length_cons, List.length_nil]
          omega

/-- C7: the sweep returns exactly one trade for each PLACED MARKET order
whose symbol resolves to an instrument, past any failing orders; in the
three-order scenario with an unknown symbol in the middle, it returns
exactly the two trades of the first and third orders, which end
EXECUTED while the middle one remains PLACED. -/
theorem C7_sweep_isolation :
    (∀ s : Storage, ((simulate_market_execution s).2).length =
        ((s.orders.filter placed_market).filter
          (fun o => (s.get_instrument o.symbol).isSome)).length) ∧
    ((simulate_market_execution c7Storage).2).map Trade.order_id =
      ["order-0", "order-2"] ∧
    ((simulate_market_execution c7Storage).1).get_order "order-0" =
      some { id := "order-0", symbol := "TCS", order_type := OrderType.BUY
             order_style := OrderStyle.MARKET, quantity := 10, price := none
             status := OrderStatus.EXECUTED } ∧
    ((simulate_market_execution c7Storage).1).get_order "order-1" =
      some { id := "order-1", symbol := "NOPE", order_type := OrderType.BUY
             order_style := OrderStyle.MARKET, quantity := 5, price := none
             status := OrderStatus.PLACED } ∧
    ((simulate_market_execution c7Storage).1).get_order "order-2" =
      some { id := "order-2", symbol := "INFY", order_type := OrderType.BUY
             order_style := OrderStyle.MARKET, quantity := 7, price := none
             status := OrderStatus.EXECUTED } := by
  refine ⟨?_, by decide, by decide, by decide, by decide⟩
  intro s
  have hc := sweep_fold_count s.instruments (s.orders.filter placed_market) (s, []) rfl
  unfold simulate_market_execution
  rw [hc]
  simp only [List.length_nil, Nat.zero_add]
  congr 1
  apply List.filter_congr
  intro o ho
  have hmarket : o.order_style = OrderStyle.MARKET := by
    have hpm := List.of_mem_filter ho
    unfold placed_market at hpm
    simp only [decide_eq_true_eq] at hpm
    exact hpm.2
  show decide (o.order_style = OrderStyle.MARKET ∧
      (s.get_instrument o.symbol).isSome = true) = (s.get_instrument o.symbol).isSome
  cases hio : (s.get_instrument o.symbol).isSome
  · simp [hmarket, hio]
  · simp [hmarket, hio]

end TradingSDK
